import Mathlib

/-!
Verification of the HTTP/1.1 server request engine (Http::Server).

The definitions below are a shallow embedding of the request protocol
engine found in src/src/Server.cpp (the latest revision in that file:
the incremental Server::Impl::ParseRequest, Server::Impl::DataReceived,
Server::RegisterResource and the helpers ParseSize and ParseRequestLine).

External collaborators that are not part of this repository, and
declarations whose header file is absent from the sources
(MessageHeaders::MessageHeaders, Uri::Uri, the Response declaration and
the timeout monitor), are modelled from the specification; each such
definition carries a doc comment saying so.

Byte strings are modelled as lists of characters; the size_t arithmetic
of ParseSize is modelled as Nat with an explicit modulus 2^64.
-/

set_option maxRecDepth 100000

namespace HttpSrv

/-- Byte strings of the engine: a list of characters. -/
abbrev Str := List Char

/-- Lower-case folding on a character code, for case-insensitive header names. -/
def lowerN (n : Nat) : Nat := if 65 ≤ n ∧ n ≤ 90 then n + 32 else n

/-- Case-insensitive key of a header name. -/
def nameKey (s : Str) : List Nat := s.map (fun c => lowerN c.toNat)

/-- Blank detection used when trimming header values and tokens. -/
def isSpaceC (c : Char) : Bool := c = ' ' || c = '\t'

/-- Remove leading and trailing blanks from a string. -/
def trimStr (s : Str) : Str :=
  ((s.dropWhile isSpaceC).reverse.dropWhile isSpaceC).reverse

/-- Split a string on commas (used for multi-valued headers). -/
def splitComma : Str → List Str
  | [] => [[]]
  | ',' :: r => [] :: splitComma r
  | c :: r =>
    match splitComma r with
    | [] => [[c]]
    | t :: ts => (c :: t) :: ts

/-- Split a string at the first CRLF: the line before it and the rest after it. -/
def splitLine : Str → Option (Str × Str)
  | [] => none
  | '\r' :: '\n' :: r => some ([], r)
  | c :: r => (splitLine r).map (fun p => (c :: p.1, p.2))

/-- Split a string at the first space character. -/
def splitSpace : Str → Option (Str × Str)
  | [] => none
  | ' ' :: r => some ([], r)
  | c :: r => (splitSpace r).map (fun p => (c :: p.1, p.2))

/-- Split a string on slashes, mirroring how a URI path decomposes into segments. -/
def splitSlash : Str → List Str
  | [] => [[]]
  | '/' :: r => [] :: splitSlash r
  | c :: r =>
    match splitSlash r with
    | [] => [[c]]
    | t :: ts => (c :: t) :: ts

/-- Does the first string occur as a contiguous run at the head of the second? -/
def leadMatch : Str → Str → Bool
  | [], _ => true
  | _ :: _, [] => false
  | a :: as, b :: bs => a = b && leadMatch as bs

/-- Does the first string occur contiguously anywhere inside the second? -/
def containsSub (pat : Str) : Str → Bool
  | [] => pat.isEmpty
  | c :: r => leadMatch pat (c :: r) || containsSub pat r

/-- Parse state of the header block, as reported by the header parser. -/
inductive HState where
  | incomplete
  | complete
  | error
deriving DecidableEq

/-- Modelled from the spec: the external header-parser collaborator
(MessageHeaders::MessageHeaders, not part of this repository).  It holds a
case-insensitive multi-valued header map with preserved insertion order, a
per-line length limit, a validity flag and a completion state (§2 A, §4.1). -/
structure MessageHeaders where
  lineLimit : Nat
  headers : List (Str × Str)
  valid : Bool
  hstate : HState
deriving DecidableEq

/-- Fresh header block, before any bytes have been parsed. -/
def emptyHeaders : MessageHeaders := ⟨1000, [], true, .incomplete⟩

/-- The Host header name. -/
def hostN : Str := ("Host").toList

/-- The Content-Length header name. -/
def clN : Str := ("Content-Length").toList

/-- The Transfer-Encoding header name. -/
def teN : Str := ("Transfer-Encoding").toList

/-- The Connection header name. -/
def connN : Str := ("Connection").toList

/-- The close connection token. -/
def closeTok : Str := ("close").toList

/-- Split a header line at the first colon. -/
def splitColon : Str → Option (Str × Str)
  | [] => none
  | ':' :: r => some ([], r)
  | c :: r => (splitColon r).map (fun p => (c :: p.1, p.2))

/-- Modelled from the spec: fold one complete header line into the header map.
A line without a colon is a damaged header: the block keeps parsing but its
validity flag drops (the engine then marks the request invalid). -/
def addHeaderLine (m : MessageHeaders) (line : Str) : MessageHeaders :=
  match splitColon line with
  | none => ⟨m.lineLimit, m.headers, false, m.hstate⟩
  | some (n, v) => ⟨m.lineLimit, m.headers ++ [(n, trimStr v)], m.valid, m.hstate⟩

/-- Modelled from the spec: the incremental header-parse loop.  It consumes
complete lines only (a partial line is left to the caller's buffer), stops
with state complete after the empty line, errors when a line exceeds the
limit, and otherwise reports incomplete.  Returns the parsed state and the
number of characters consumed. -/
def phRun (m : MessageHeaders) (cur : Str) (consumed : Nat) : Str → MessageHeaders × Nat
  | [] =>
    if cur.length > m.lineLimit then (⟨m.lineLimit, m.headers, m.valid, .error⟩, consumed)
    else (m, consumed)
  | '\r' :: '\n' :: rest =>
    if cur = [] then (⟨m.lineLimit, m.headers, m.valid, .complete⟩, consumed + 2)
    else if cur.length + 2 > m.lineLimit then (⟨m.lineLimit, m.headers, m.valid, .error⟩, consumed)
    else phRun (addHeaderLine m cur) [] (consumed + (cur.length + 2)) rest
  | c :: rest => phRun m (cur ++ [c]) consumed rest

/-- Modelled from the spec: MessageHeaders::ParseRawMessage, incremental entry
point used by the engine.  Consumed characters are erased by the caller. -/
def parseRawMessage (m : MessageHeaders) (input : Str) : MessageHeaders × Nat :=
  phRun m [] 0 input

/-- Look up the first header with the given (case-insensitive) name. -/
def findHeader (m : MessageHeaders) (nm : Str) : Option (Str × Str) :=
  m.headers.find? (fun p => nameKey p.1 = nameKey nm)

/-- Modelled from the spec: MessageHeaders::HasHeader. -/
def hasHeader (m : MessageHeaders) (nm : Str) : Bool := (findHeader m nm).isSome

/-- Modelled from the spec: MessageHeaders::GetHeaderValue (first value). -/
def getHeaderValue (m : MessageHeaders) (nm : Str) : Str :=
  match findHeader m nm with
  | some p => p.2
  | none => []

/-- Modelled from the spec: MessageHeaders::GetHeaderMultiValues — all values
of a name, comma-split and trimmed. -/
def getHeaderMultiValues (m : MessageHeaders) (nm : Str) : List Str :=
  ((m.headers.filter (fun p => nameKey p.1 = nameKey nm)).map
    (fun p => (splitComma p.2).map trimStr)).flatten

/-- Modelled from the spec: MessageHeaders::AddHeader appends a header. -/
def addHeader (m : MessageHeaders) (nm v : Str) : MessageHeaders :=
  ⟨m.lineLimit, m.headers ++ [(nm, v)], m.valid, m.hstate⟩

/-- Modelled from the spec: MessageHeaders::GenerateRawHeaders — each header
as Name: Value CRLF, then the terminating empty line. -/
def generateRawHeaders (m : MessageHeaders) : Str :=
  ((m.headers.map (fun p => p.1 ++ (": ").toList ++ p.2 ++ ("\r\n").toList)).flatten)
    ++ ("\r\n").toList

/-- Modelled from the spec: the external Uri::Uri collaborator, reduced to the
two parts the engine consults — an optional explicit host (empty when absent)
and the path segments. -/
structure Uri where
  host : Str
  path : List Str
deriving DecidableEq

/-- Strip a literal http scheme marker from the front of a target string. -/
def dropHttpScheme : Str → Option Str
  | 'h' :: 't' :: 't' :: 'p' :: ':' :: '/' :: '/' :: r => some r
  | _ => none

/-- Modelled from the spec: Uri::ParseFromString.  A target with the http
scheme yields its authority as the host and the remainder as path segments; a
plain target yields only path segments (a leading slash gives a leading empty
segment).  The model always succeeds. -/
def parseUri (s : Str) : Option Uri :=
  match dropHttpScheme s with
  | some r =>
    let hostPart := r.takeWhile (fun c => c ≠ '/')
    let rest := r.dropWhile (fun c => c ≠ '/')
    some ⟨hostPart, if rest = [] then [] else splitSlash rest⟩
  | none => some ⟨[], splitSlash s⟩

/-- Request parsing states of the engine (Server.hpp, RequestParsingState). -/
inductive RState where
  | requestLine
  | headers
  | body
  | complete
  | error
deriving DecidableEq

/-- The engine's Request object (Server.hpp).  The responseStatusCode and
responseStatusPhrase fields are declared in a header absent from the sources;
modelled from the spec, which pre-seeds them with 400 and Bad Request. -/
structure Request where
  method : Str
  target : Uri
  headers : MessageHeaders
  body : Str
  valid : Bool
  state : RState
  responseStatusCode : Nat
  responseStatusPhrase : Str
deriving DecidableEq

/-- A fresh Request, as constructed when a new request begins on a connection. -/
def freshRequest : Request :=
  ⟨[], ⟨[], []⟩, emptyHeaders, [], true, .requestLine, 400, ("Bad Request").toList⟩

/-- Server::Request::IsProcessed — complete or error. -/
def Request.IsProcessed (r : Request) : Bool :=
  r.state = .complete || r.state = .error

/-- Result of ParseSize (Server.cpp). -/
inductive ParseSizeResult where
  | success
  | notaNumber
  | overflow
deriving DecidableEq

/-- The modulus of the size_t arithmetic in ParseSize. -/
def U64 : Nat := 18446744073709551616

/-- The accumulation loop of ParseSize (Server.cpp): digit check, then
multiply-accumulate modulo 2^64 with the division-based overflow test. -/
def parseSizeAux (acc : Nat) : Str → ParseSizeResult × Nat
  | [] => (.success, acc)
  | c :: r =>
    if c.toNat < 48 || 57 < c.toNat then (.notaNumber, acc)
    else
      let n := (acc * 10 + (c.toNat - 48)) % U64
      if n / 10 ≠ acc then (.overflow, n)
      else parseSizeAux n r

/-- ParseSize (Server.cpp): parse a Content-Length value as an unsigned
decimal size_t, reporting not-a-number or overflow. -/
def parseSize (s : Str) : ParseSizeResult × Nat := parseSizeAux 0 s

/-- The request body ceiling MAX_CONTENT_LENGTH (Server.cpp). -/
def MAX_CONTENT_LENGTH : Nat := 10000000

/-- The engine configuration consulted by ParseRequest: the header line limit
and the configured Host item (empty disables the host check). -/
structure SrvConfig where
  headerLineLimit : Nat
  host : Str
deriving DecidableEq

/-- The default configuration (HeaderLineLimit 1000, no Host item). -/
def defaultConfig : SrvConfig := ⟨1000, []⟩

/-- ParseRequestLine (Server.cpp): split the request line at the first two
spaces into method, target and protocol; the protocol must be HTTP/1.1.
When no second space exists the target delimiter is npos, so the target is
the whole remainder and the protocol substring wraps around to the whole
line (the C++ npos + 1 overflow). -/
def parseRequestLine (r : Request) (line : Str) : Request × Bool :=
  match splitSpace line with
  | none => (r, false)
  | some (mthd, rest1) =>
    let r1 := { r with method := mthd }
    if mthd = [] then (r1, false)
    else
      match splitSpace rest1 with
      | some (tgt, rest2) =>
        if tgt = [] then (r1, false)
        else
          match parseUri tgt with
          | none => (r1, false)
          | some u => ({ r1 with target := u }, decide (rest2 = ("HTTP/1.1").toList))
      | none =>
        match parseUri rest1 with
        | none => (r1, false)
        | some u => ({ r1 with target := u }, decide (line = ("HTTP/1.1").toList))

/-- The Host semantic checks at the Headers-to-Body transition
(Server.cpp, ParseRequest, Complete case of the headers switch). -/
def hostCheckApply (cfg : SrvConfig) (r : Request) : Request :=
  if hasHeader r.headers hostN then
    let requestHost := getHeaderValue r.headers hostN
    let serverHost := if cfg.host = [] then requestHost else cfg.host
    let targetHost := if r.target.host = [] then serverHost else r.target.host
    if requestHost ≠ targetHost ∨ requestHost ≠ serverHost then
      { r with valid := false }
    else r
  else { r with valid := false }

/-- The Body phase of ParseRequest (Server.cpp): parse Content-Length, apply
the 413 overflow and ceiling rules, and carve the body when enough bytes are
available. -/
def parseBodyPhase (r : Request) (input : Str) (messageEnd : Nat) : Request × Nat :=
  if hasHeader r.headers clN then
    match parseSize (getHeaderValue r.headers clN) with
    | (.notaNumber, _) => ({ r with state := .error }, messageEnd)
    | (.overflow, _) =>
      ({ r with state := .error,
                responseStatusCode := 413,
                responseStatusPhrase := ("Payload Too Large").toList }, messageEnd)
    | (.success, contentLength) =>
      if contentLength > MAX_CONTENT_LENGTH then
        ({ r with state := .error,
                  responseStatusCode := 413,
                  responseStatusPhrase := ("Payload Too Large").toList }, messageEnd)
      else
        if contentLength > input.length - messageEnd then
          ({ r with state := .body }, messageEnd)
        else
          ({ r with body := (input.drop messageEnd).take contentLength,
                    state := .complete }, messageEnd + contentLength)
  else ({ r with body := [], state := .complete }, messageEnd)

/-- The Headers phase of ParseRequest (Server.cpp): delegate to the header
parser at the configured line limit, then on completion run the host checks
and fall through to the Body phase. -/
def parseHeadersPhase (cfg : SrvConfig) (r : Request) (input : Str) (messageEnd : Nat) :
    Request × Nat :=
  let m0 : MessageHeaders :=
    ⟨cfg.headerLineLimit, r.headers.headers, r.headers.valid, r.headers.hstate⟩
  let pr := parseRawMessage m0 (input.drop messageEnd)
  let m1 := pr.1
  let mEnd := messageEnd + pr.2
  match m1.hstate with
  | .complete =>
    let r1 := { r with headers := m1, valid := r.valid && m1.valid, state := RState.body }
    parseBodyPhase (hostCheckApply cfg r1) input mEnd
  | .incomplete => ({ r with headers := m1 }, mEnd)
  | .error => ({ r with headers := m1, state := .error }, mEnd)

/-- The RequestLine phase of ParseRequest (Server.cpp): wait for a CRLF,
enforce the line limit (also on a buffer that has no CRLF yet), parse the
request line and fall through to the Headers phase. -/
def parseRequestLinePhase (cfg : SrvConfig) (r : Request) (input : Str) : Request × Nat :=
  match splitLine input with
  | none =>
    if input.length > cfg.headerLineLimit then ({ r with state := .error }, 0)
    else (r, 0)
  | some (line, _) =>
    if line.length > cfg.headerLineLimit then ({ r with state := .error }, 0)
    else
      let pl := parseRequestLine r line
      parseHeadersPhase cfg { pl.1 with state := RState.headers, valid := pl.2 }
        input (line.length + 2)

/-- Server::Impl::ParseRequest (Server.cpp): one incremental parsing call on
the connection buffer; returns the updated request and the number of
characters accepted (which the caller erases). -/
def parseRequest (cfg : SrvConfig) (r : Request) (input : Str) : Request × Nat :=
  match r.state with
  | .requestLine => parseRequestLinePhase cfg r input
  | .headers => parseHeadersPhase cfg r input 0
  | .body => parseBodyPhase r input 0
  | .complete => (r, 0)
  | .error => (r, 0)

/-- Modelled from the spec: the handler Response (declared in a header absent
from the sources; the tests use Http::Client::Response).  Fields are the
status code, the status phrase, the header map and the body. -/
structure HttpResponse where
  statusCode : Nat
  status : Str
  headers : MessageHeaders
  body : Str

/-- Decimal rendering of a number, as the engine prints sizes and codes. -/
def natToStr (n : Nat) : Str := Nat.toDigits 10 n

/-- Response::GenerateToString (Client.cpp): the status line, the raw header
block and the body. -/
def generateToString (resp : HttpResponse) : Str :=
  ("HTTP/1.1 ").toList ++ natToStr resp.statusCode ++ [' '] ++ resp.status
    ++ ("\r\n").toList ++ generateRawHeaders resp.headers ++ resp.body

/-- The resource handler delegate: turns a Request into a Response. -/
abbrev Handler := Request → HttpResponse

/-- The ResourceSpace tree (Server.cpp): an optional handler and named
subspaces.  The weak parent pointer of the C++ is replaced by functional
bottom-up reconstruction. -/
inductive RTree where
  | node : Option Handler → List (Str × RTree) → RTree

/-- The handler of a resource node. -/
def RTree.handler : RTree → Option Handler
  | .node h _ => h

/-- The subspaces of a resource node. -/
def RTree.children : RTree → List (Str × RTree)
  | .node _ c => c

/-- Look up a subspace by name (first match). -/
def findChild : List (Str × RTree) → Str → Option RTree
  | [], _ => none
  | p :: rest, seg => if p.1 = seg then some p.2 else findChild rest seg

/-- Replace the subspace with the given name (first match). -/
def replaceChild : List (Str × RTree) → Str → RTree → List (Str × RTree)
  | [], _, _ => []
  | p :: rest, seg, c => if p.1 = seg then (seg, c) :: rest else p :: replaceChild rest seg c

/-- Server::RegisterResource (Server.cpp): walk the path creating missing
subspaces; fail (false) when a walked node already holds a handler, or when
the target node holds a handler or has subspaces; otherwise install the
handler.  The tree resulting from a failed walk keeps the subspaces created
on the way, as the C++ map insertion does. -/
def registerAt (h : Handler) : List Str → RTree → RTree × Bool
  | [], t =>
    match t.handler with
    | some _ => (t, false)
    | none =>
      if t.children.isEmpty then (.node (some h) t.children, true) else (t, false)
  | seg :: rest, t =>
    match t.handler with
    | some _ => (t, false)
    | none =>
      match findChild t.children seg with
      | some c =>
        let pr := registerAt h rest c
        (.node none (replaceChild t.children seg pr.1), pr.2)
      | none =>
        let pr := registerAt h rest (.node none [])
        (.node none (t.children ++ [(seg, pr.1)]), pr.2)

/-- Server::RegisterResource at the server level: the resource tree starts
absent and is created on the first registration attempt. -/
def registerResource (res : Option RTree) (path : List Str) (h : Handler) :
    Option RTree × Bool :=
  let t := res.getD (.node none [])
  let pr := registerAt h path t
  (some pr.1, pr.2)

/-- The unregistration closure (Server.cpp, RegisterResource): clear the
handler at the node, then prune every node that has become handler-less and
child-less, releasing the root itself when it ends empty. -/
def unregisterAt : List Str → RTree → Option RTree
  | [], t =>
    if t.children.isEmpty then none else some (.node none t.children)
  | seg :: rest, t =>
    match findChild t.children seg with
    | none => some t
    | some c =>
      match unregisterAt rest c with
      | some c1 => some (.node t.handler (replaceChild t.children seg c1))
      | none =>
        let rem := t.children.filter (fun p => ¬ (p.1 = seg))
        if rem.isEmpty ∧ t.handler.isNone then none else some (.node t.handler rem)

/-- Unregistration at the server level. -/
def unregisterResource (res : Option RTree) (path : List Str) : Option RTree :=
  match res with
  | none => none
  | some t => unregisterAt path t

/-- Find the node at a path, descending through existing subspaces only. -/
def findNode : List Str → RTree → Option RTree
  | [], t => some t
  | seg :: rest, t =>
    match findChild t.children seg with
    | none => none
    | some c => findNode rest c

/-- The dispatch walk (Server.cpp, DataReceived): descend while segments
match subspace names; return the deepest matched node and the remaining
path tail. -/
def walkTree : List Str → RTree → RTree × List Str
  | [], t => (t, [])
  | seg :: rest, t =>
    match findChild t.children seg with
    | none => (t, seg :: rest)
    | some c => walkTree rest c

/-- Strip a leading empty path segment (the root slash), as DataReceived does. -/
def stripRoot : List Str → List Str
  | [] :: rest => rest
  | p => p

/-- The canned 404 response of DataReceived (Server.cpp), byte for byte. -/
def canned404 : Str :=
  ("HTTP/1.1 404 Not Found\r\nContent-Length: 13\r\nContent-Type: text/plain\r\n\r\nBadRequest.\r\n").toList

/-- The canned 400 response of DataReceived (Server.cpp), byte for byte. -/
def canned400 : Str :=
  ("HTTP/1.1 400 Bad Request\r\nContent-Length: 13\r\nContent-Type: text/plain\r\n\r\nBadRequest.\r\n").toList

/-- The canned 413-path response of DataReceived (Server.cpp): the status
line is printed from the request's responseStatusCode and phrase. -/
def canned413 (r : Request) : Str :=
  ("HTTP/1.1 ").toList ++ natToStr r.responseStatusCode ++ [' '] ++ r.responseStatusPhrase
    ++ ("\r\nContent-Length: 13\r\nContent-Type: text/plain\r\n\r\nBadRequest.\r\n").toList

/-- The Content-Length fix-up of DataReceived (Server.cpp): when the handler
response has a non-empty body and neither Transfer-Encoding nor
Content-Length, add Content-Length equal to the body length. -/
def contentLengthFixup (resp : HttpResponse) : HttpResponse :=
  if ¬ hasHeader resp.headers teN
      ∧ resp.body ≠ []
      ∧ ¬ hasHeader resp.headers clN then
    { resp with headers := addHeader resp.headers clN (natToStr resp.body.length) }
  else resp

/-- The response text produced for one processed request (the branch ladder
of DataReceived, Server.cpp): dispatch to a handler for a valid complete
request (rewriting the target to the unmatched tail), the canned 404 when no
handler matches, the 413-path response when the request erred with
responseStatusCode 413, and the canned 400 otherwise. -/
def handleText (res : Option RTree) (req : Request) : Str :=
  if req.state = .complete ∧ req.valid then
    match res with
    | none => canned404
    | some t =>
      let wr := walkTree (stripRoot req.target.path) t
      match wr.1.handler with
      | some h =>
        generateToString (contentLengthFixup
          (h { req with target := { req.target with path := wr.2 } }))
      | none => canned404
  else
    if req.state = .error ∧ req.responseStatusCode = 413 then canned413 req
    else canned400

/-- Observable actions of the engine on a connection: sending a response for
a popped request, and breaking the connection (gracefully). -/
inductive SrvEvent where
  | response : Request → Str → SrvEvent
  | broken : Bool → SrvEvent
deriving DecidableEq

/-- The Connection header tokens of a request (multi-valued, comma-split and
trimmed), as DataReceived reads them. -/
def connTokens (req : Request) : List Str :=
  getHeaderMultiValues req.headers connN

/-- The per-connection state the engine keeps between data arrivals: the
concatenate buffer and the request under construction. -/
structure ConnState where
  buffer : Str
  nextRequest : Request
deriving DecidableEq

/-- The parse-and-respond loop of DataReceived (Server.cpp): repeatedly parse
the buffer, erase the accepted characters, and when the request is processed
pop it, send its response, break on close or on error, and keep looping
after complete requests.  The fuel argument only bounds the iteration count;
DataReceived supplies more fuel than the loop can consume. -/
def drLoop (cfg : SrvConfig) (res : Option RTree) : Nat → ConnState → ConnState × List SrvEvent
  | 0, st => (st, [])
  | Nat.succ fuel, st =>
    let pr := parseRequest cfg st.nextRequest st.buffer
    let r1 := pr.1
    let buf1 := st.buffer.drop pr.2
    if r1.IsProcessed then
      let st1 : ConnState := ⟨buf1, freshRequest⟩
      let bytes := handleText res r1
      if r1.state = .complete then
        let evs :=
          SrvEvent.response r1 bytes ::
            (if (connTokens r1).contains closeTok then [SrvEvent.broken true] else [])
        let next := drLoop cfg res fuel st1
        (next.1, evs ++ next.2)
      else
        (st1, [SrvEvent.response r1 bytes, SrvEvent.broken true])
    else
      (⟨buf1, r1⟩, [])

/-- Server::Impl::DataReceived (Server.cpp): append the data to the
concatenate buffer and run the parse-and-respond loop. -/
def dataReceived (cfg : SrvConfig) (res : Option RTree) (st : ConnState) (data : Str) :
    ConnState × List SrvEvent :=
  drLoop cfg res (st.buffer.length + data.length + 1) ⟨st.buffer ++ data, st.nextRequest⟩

/-- Deliver a sequence of chunks through the data-received path, collecting
the events in order. -/
def serverRun (cfg : SrvConfig) (res : Option RTree) :
    ConnState → List Str → ConnState × List SrvEvent
  | st, [] => (st, [])
  | st, d :: ds =>
    let pr := dataReceived cfg res st d
    let rest := serverRun cfg res pr.1 ds
    (rest.1, pr.2 ++ rest.2)

/-- A connection before any bytes have arrived. -/
def initialConn : ConnState := ⟨[], freshRequest⟩

/-- All bytes sent on the connection by a list of events, in order. -/
def sentBytes (evs : List SrvEvent) : Str :=
  (evs.map (fun e => match e with | .response _ b => b | .broken _ => [])).flatten

/-- Whether any event broke the connection. -/
def anyBroken (evs : List SrvEvent) : Bool :=
  evs.any (fun e => match e with | .broken _ => true | _ => false)

/-- The request of the first response event, when one exists. -/
def firstResponseReq : List SrvEvent → Option Request
  | [] => none
  | SrvEvent.response r _ :: _ => some r
  | SrvEvent.broken _ :: rest => firstResponseReq rest

/-- Modelled from the spec: the per-connection clock state read by the
timeout monitor task (§4.7), whose implementation is absent from src/. -/
structure TimedConn where
  timeLastDataReceived : ℚ
  broken : Bool
deriving DecidableEq

/-- Modelled from the spec: the monitor configuration (InactivityTimeout,
default 1.0 second). -/
structure TimeoutConfig where
  inactivityTimeout : ℚ
deriving DecidableEq

/-- The default InactivityTimeout of 1.0 second. -/
def defaultTimeoutConfig : TimeoutConfig := ⟨1⟩

/-- Modelled from the spec: the synthesized 408 Request Timeout response
carrying Connection: close (§4.7, §7). -/
def response408 : HttpResponse :=
  ⟨408, ("Request Timeout").toList,
    ⟨1000, [(("Connection").toList, ("close").toList)], true, .complete⟩, []⟩

/-- Events of the modelled timeout monitor: bytes sent and a break. -/
inductive TimedEvent where
  | sent : Str → TimedEvent
  | broke : TimedEvent
deriving DecidableEq

/-- Modelled from the spec: one wake of the timeout monitor on one live
connection — when now minus timeLastDataReceived exceeds the inactivity
timeout, send the 408 response and break the connection (§4.7). -/
def monitorPoll (cfg : TimeoutConfig) (now : ℚ) (c : TimedConn) : TimedConn × List TimedEvent :=
  if ¬ c.broken ∧ now - c.timeLastDataReceived > cfg.inactivityTimeout then
    ({ c with broken := true }, [TimedEvent.sent (generateToString response408), TimedEvent.broke])
  else (c, [])

/-- Modelled from the spec: bytes arriving on a live connection update
timeLastDataReceived to the current time (§4.5). -/
def feedDataAt (now : ℚ) (c : TimedConn) : TimedConn :=
  { c with timeLastDataReceived := now }

/-! ## Concrete inputs used by the claim theorems -/

/-- A configuration with HeaderLineLimit 12, exercising the request-line
limit of the engine. -/
def limit12Config : SrvConfig := ⟨12, []⟩

/-- A valid request whose request line is exactly as long as the limit of
limit12Config. -/
def fragReq : Str := ("G / HTTP/1.1\r\nHost: h\r\n\r\n").toList

/-- The first thirteen bytes of fragReq: the request line plus its CR. -/
def fragChunk1 : Str := fragReq.take 13

/-- The remainder of fragReq after fragChunk1. -/
def fragChunk2 : Str := fragReq.drop 13

/-- The happy-path request of the spec's scenario 1. -/
def happyReq : Str :=
  ("GET /hello.txt HTTP/1.1\r\nUser-Agent: x\r\nHost: www.example.com\r\n\r\n").toList

/-- The 404 byte string the spec claims for scenario 1 (Content-Type put
before Content-Length). -/
def claimed404 : Str :=
  ("HTTP/1.1 404 Not Found\r\nContent-Type: text/plain\r\nContent-Length: 13\r\n\r\nBadRequest.\r\n").toList

/-! ## C1 — fragmentation invariance -/

/-- C1: fragmentation invariance fails on the code.  fragReq is a valid
request under limit12Config — parsed in one chunk it is accepted whole,
completes validly, and the engine answers 404 without breaking the
connection.  Splitting the same bytes after the CR of the request line (a
13-byte first chunk against the limit of 12) makes the engine declare an
unrecoverable error: it answers 400, breaks the connection, and the event
sequences of the two deliveries differ. -/
theorem c1_fragmentation_bug :
    fragChunk1 ++ fragChunk2 = fragReq
    ∧ (parseRequest limit12Config freshRequest fragReq).1.state = RState.complete
    ∧ (parseRequest limit12Config freshRequest fragReq).1.valid = true
    ∧ (parseRequest limit12Config freshRequest fragReq).2 = fragReq.length
    ∧ sentBytes (serverRun limit12Config none initialConn [fragReq]).2 = canned404
    ∧ anyBroken (serverRun limit12Config none initialConn [fragReq]).2 = false
    ∧ sentBytes (serverRun limit12Config none initialConn [fragChunk1, fragChunk2]).2
        = canned400 ++ canned404
    ∧ anyBroken (serverRun limit12Config none initialConn [fragChunk1, fragChunk2]).2 = true
    ∧ (serverRun limit12Config none initialConn [fragChunk1, fragChunk2]).2
        ≠ (serverRun limit12Config none initialConn [fragReq]).2 := by
  decide

/-! ## C2 — happy-path 404 -/

/-- C2 counterexample: on the spec's scenario-1 request the engine does not
send the byte string the claim states — the code writes Content-Length
before Content-Type in its canned 404. -/
theorem c2_counterexample :
    sentBytes (serverRun defaultConfig none initialConn [happyReq]).2 ≠ claimed404 := by
  decide

/-- C2 amended: delivering the scenario-1 request on an engine with no
resources produces exactly one response, whose bytes are the canned 404 with
Content-Length before Content-Type, the popped request is complete and
valid, and the connection is not broken. -/
theorem c2_amended :
    (serverRun defaultConfig none initialConn [happyReq]).2.length = 1
    ∧ sentBytes (serverRun defaultConfig none initialConn [happyReq]).2 = canned404
    ∧ anyBroken (serverRun defaultConfig none initialConn [happyReq]).2 = false
    ∧ (firstResponseReq (serverRun defaultConfig none initialConn [happyReq]).2).map
        Request.state = some RState.complete
    ∧ (firstResponseReq (serverRun defaultConfig none initialConn [happyReq]).2).map
        Request.valid = some true := by
  decide

/-! ## C9 — inactivity timeout (spec-modelled) -/

/-- C9: on the modelled timeout monitor, whenever a poll happens at a time
strictly more than the inactivity timeout after the last data arrival on a
live connection, the monitor sends the 408 Request Timeout response carrying
Connection: close and breaks the connection; a poll within the bound does
nothing. -/
theorem c9_inactivity (cfg : TimeoutConfig) (now : ℚ) (c : TimedConn)
    (hb : c.broken = false) :
    (now - c.timeLastDataReceived > cfg.inactivityTimeout →
      monitorPoll cfg now c =
        ({ c with broken := true },
          [TimedEvent.sent (generateToString response408), TimedEvent.broke])
      ∧ containsSub (("Connection: close").toList) (generateToString response408) = true
      ∧ containsSub (("408 Request Timeout").toList) (generateToString response408) = true)
    ∧ (¬ now - c.timeLastDataReceived > cfg.inactivityTimeout →
        monitorPoll cfg now c = (c, [])) := by
  constructor
  · intro hgt
    refine ⟨?_, by decide, by decide⟩
    simp [monitorPoll, hb, hgt]
  · intro hle
    simp [monitorPoll, hle]

/-- C9 witness: with the default 1.0-second timeout, a connection last fed at
time 0 and polled at time 2 receives the 408 carrying Connection: close and
is broken. -/
theorem c9_inactivity_witness :
    monitorPoll defaultTimeoutConfig 2 ⟨0, false⟩ =
      (⟨0, true⟩, [TimedEvent.sent (generateToString response408), TimedEvent.broke])
    ∧ containsSub (("Connection: close").toList) (generateToString response408) = true := by
  have h := (c9_inactivity defaultTimeoutConfig 2 ⟨0, false⟩ rfl).1
    (by norm_num [defaultTimeoutConfig])
  exact ⟨h.1, h.2.1⟩

/-! ## Resource-tree lemmas -/

/-- A placeholder handler used to instantiate universally quantified
registration statements. -/
def dummyHandler : Handler := fun _ => ⟨200, ("OK").toList, emptyHeaders, []⟩

theorem findChild_replace (l : List (Str × RTree)) (s : Str) (x : RTree)
    (hs : (findChild l s).isSome) : findChild (replaceChild l s x) s = some x := by
  induction l with
  | nil => simp [findChild] at hs
  | cons p rest ih =>
    by_cases hp : p.1 = s
    · simp [findChild, replaceChild, hp]
    · simp [findChild, replaceChild, hp] at hs ⊢
      exact ih hs

theorem findChild_replace_other (l : List (Str × RTree)) (s s2 : Str) (x : RTree)
    (hne : s2 ≠ s) : findChild (replaceChild l s x) s2 = findChild l s2 := by
  induction l with
  | nil => simp [replaceChild]
  | cons p rest ih =>
    by_cases hp : p.1 = s
    · have hps2 : ¬ p.1 = s2 := by
        rw [hp]
        exact fun hcontra => hne hcontra.symm
      simp [findChild, replaceChild, hp, hps2, Ne.symm hne]
    · simp [findChild, replaceChild, hp, ih]

theorem findChild_append_of_some (l l2 : List (Str × RTree)) (s : Str) (d : RTree)
    (hfound : findChild l s = some d) : findChild (l ++ l2) s = some d := by
  induction l with
  | nil => simp [findChild] at hfound
  | cons p rest ih =>
    by_cases hp : p.1 = s
    · simp [findChild, hp] at hfound ⊢
      exact hfound
    · simp [findChild, hp] at hfound ⊢
      exact ih hfound

theorem findChild_append_new (l : List (Str × RTree)) (s : Str) (c : RTree)
    (hnone : findChild l s = none) : findChild (l ++ [(s, c)]) s = some c := by
  induction l with
  | nil => simp [findChild]
  | cons p rest ih =>
    by_cases hp : p.1 = s
    · simp [findChild, hp] at hnone
    · simp [findChild, hp] at hnone ⊢
      exact ih hnone

theorem length_replaceChild (l : List (Str × RTree)) (s : Str) (x : RTree) :
    (replaceChild l s x).length = l.length := by
  induction l with
  | nil => simp [replaceChild]
  | cons p rest ih =>
    by_cases hp : p.1 = s
    · simp [replaceChild, hp]
    · simp [replaceChild, hp, ih]

/-- A successful registration leaves a handler installed at the registered
path. -/
theorem registerAt_handlerAt (p : List Str) (t : RTree) (h : Handler)
    (hsucc : (registerAt h p t).2 = true) :
    (findNode p (registerAt h p t).1).map (fun nd => nd.handler.isSome) = some true := by
  induction p generalizing t with
  | nil =>
    cases t with
    | node oh ch =>
      cases oh with
      | some hh => simp [registerAt, RTree.handler] at hsucc
      | none =>
        by_cases hch : ch.isEmpty
        · simp [registerAt, RTree.handler, RTree.children, hch, findNode]
        · simp [registerAt, RTree.handler, RTree.children, hch] at hsucc
  | cons s rest ih =>
    cases t with
    | node oh ch =>
      cases oh with
      | some hh => simp [registerAt, RTree.handler] at hsucc
      | none =>
        cases hfc : findChild ch s with
        | some c =>
          simp only [registerAt, RTree.handler, RTree.children, hfc] at hsucc ⊢
          have hrep := findChild_replace ch s (registerAt h rest c).1 (by simp [hfc])
          simp only [findNode, RTree.children, hrep]
          exact ih _ hsucc
        | none =>
          simp only [registerAt, RTree.handler, RTree.children, hfc] at hsucc ⊢
          have happ := findChild_append_new ch s (registerAt h rest (.node none [])).1 hfc
          simp only [findNode, RTree.children, happ]
          exact ih _ hsucc

/-- Registration never removes a handler already installed somewhere in the
tree. -/
theorem registerAt_keeps (p q : List Str) (t : RTree) (h : Handler)
    (hq : (findNode q t).map (fun nd => nd.handler.isSome) = some true) :
    (findNode q (registerAt h p t).1).map (fun nd => nd.handler.isSome) = some true := by
  induction p generalizing t q with
  | nil =>
    cases t with
    | node oh ch =>
      cases oh with
      | some hh => simpa [registerAt, RTree.handler] using hq
      | none =>
        by_cases hch : ch.isEmpty
        · cases q with
          | nil => simp [findNode, RTree.handler] at hq
          | cons s2 q2 =>
            have hempty : ch = [] := by simpa [List.isEmpty_iff] using hch
            simp [findNode, RTree.children, hempty, findChild] at hq
        · simpa [registerAt, RTree.handler, RTree.children, hch] using hq
  | cons s rest ih =>
    cases t with
    | node oh ch =>
      cases oh with
      | some hh => simpa [registerAt, RTree.handler] using hq
      | none =>
        cases q with
        | nil => simp [findNode, RTree.handler] at hq
        | cons s2 q2 =>
          cases hfc : findChild ch s with
          | some c =>
            simp only [registerAt, RTree.handler, RTree.children, hfc]
            by_cases hs2 : s2 = s
            · subst hs2
              simp only [findNode, RTree.children, hfc] at hq
              have hrep := findChild_replace ch s2 (registerAt h rest c).1 (by simp [hfc])
              simp only [findNode, RTree.children, hrep]
              exact ih q2 c hq
            · have hoth := findChild_replace_other ch s s2 (registerAt h rest c).1 hs2
              simp only [findNode, RTree.children, hoth] at hq ⊢
              exact hq
          | none =>
            simp only [registerAt, RTree.handler, RTree.children, hfc]
            simp only [findNode, RTree.children] at hq ⊢
            cases hfc2 : findChild ch s2 with
            | some d =>
              have happ := findChild_append_of_some ch [(s, (registerAt h rest (.node none [])).1)]
                s2 d hfc2
              simp only [happ]
              simpa [hfc2] using hq
            | none => simp [hfc2] at hq

/-- After a successful registration at a path, registering at any extension
of that path fails. -/
theorem registerAt_extension_fails (p1 ext : List Str) (t : RTree) (h1 h2 : Handler)
    (hsucc : (registerAt h1 p1 t).2 = true) :
    (registerAt h2 (p1 ++ ext) (registerAt h1 p1 t).1).2 = false := by
  induction p1 generalizing t with
  | nil =>
    cases t with
    | node oh ch =>
      cases oh with
      | some hh => simp [registerAt, RTree.handler] at hsucc
      | none =>
        by_cases hch : ch.isEmpty
        · simp only [registerAt, RTree.handler, RTree.children, hch, if_true,
            List.nil_append]
          cases ext with
          | nil => simp [registerAt, RTree.handler]
          | cons s r => simp [registerAt, RTree.handler]
        · simp [registerAt, RTree.handler, RTree.children, hch] at hsucc
  | cons s rest ih =>
    cases t with
    | node oh ch =>
      cases oh with
      | some hh => simp [registerAt, RTree.handler] at hsucc
      | none =>
        cases hfc : findChild ch s with
        | some c =>
          simp only [registerAt, RTree.handler, RTree.children, hfc] at hsucc ⊢
          have hrep := findChild_replace ch s (registerAt h1 rest c).1 (by simp [hfc])
          simp only [List.cons_append, registerAt, RTree.handler, RTree.children, hrep]
          exact ih _ hsucc
        | none =>
          simp only [registerAt, RTree.handler, RTree.children, hfc] at hsucc ⊢
          have happ := findChild_append_new ch s (registerAt h1 rest (.node none [])).1 hfc
          simp only [List.cons_append, registerAt, RTree.handler, RTree.children, happ]
          exact ih _ hsucc

/-- After a successful registration at a strict extension of a path,
registering at the shorter path fails. -/
theorem registerAt_shorter_fails (p2 ext : List Str) (t : RTree) (h1 h2 : Handler)
    (hne : ext ≠ []) (hsucc : (registerAt h1 (p2 ++ ext) t).2 = true) :
    (registerAt h2 p2 (registerAt h1 (p2 ++ ext) t).1).2 = false := by
  induction p2 generalizing t with
  | nil =>
    cases ext with
    | nil => exact absurd rfl hne
    | cons s r =>
      cases t with
      | node oh ch =>
        cases oh with
        | some hh => simp [registerAt, RTree.handler] at hsucc
        | none =>
          cases hfc : findChild ch s with
          | some c =>
            simp only [List.nil_append, List.append_eq, registerAt, RTree.handler, RTree.children, hfc]
              at hsucc ⊢
            have hlen : (replaceChild ch s (registerAt h1 r c).1).length = ch.length :=
              length_replaceChild ch s (registerAt h1 r c).1
            have hchne : ch ≠ [] := by
              intro hc
              rw [hc] at hfc
              simp [findChild] at hfc
            have : ¬ (replaceChild ch s (registerAt h1 r c).1).isEmpty := by
              simp only [List.isEmpty_iff]
              intro hrep
              apply hchne
              have := hlen
              rw [hrep] at this
              exact List.length_eq_zero.mp this.symm
            simp [this]
          | none =>
            simp only [List.nil_append, List.append_eq, registerAt, RTree.handler, RTree.children, hfc]
              at hsucc ⊢
            simp
  | cons s p2r ih =>
    cases t with
    | node oh ch =>
      cases oh with
      | some hh => simp [registerAt, RTree.handler] at hsucc
      | none =>
        cases hfc : findChild ch s with
        | some c =>
          simp only [List.cons_append, List.append_eq, registerAt, RTree.handler, RTree.children, hfc]
            at hsucc ⊢
          have hrep := findChild_replace ch s (registerAt h1 (p2r ++ ext) c).1 (by simp [hfc])
          simp only [hrep]
          exact ih _ hsucc
        | none =>
          simp only [List.cons_append, List.append_eq, registerAt, RTree.handler, RTree.children, hfc]
            at hsucc ⊢
          have happ := findChild_append_new ch s (registerAt h1 (p2r ++ ext) (.node none [])).1 hfc
          simp only [happ]
          exact ih _ hsucc

/-! ## C6 — resource-tree exclusivity -/

/-- C6: for two registration attempts whose prefixes are equal or one a
prefix of the other, a successful first registration makes the second fail
(it returns the not-registered sentinel), and the first registration's
handler is still installed afterwards. -/
theorem c6_exclusive (t : RTree) (p1 p2 : List Str) (h1 h2 : Handler)
    (hover : (∃ r, p2 = p1 ++ r) ∨ (∃ r, p1 = p2 ++ r))
    (hsucc : (registerAt h1 p1 t).2 = true) :
    (registerAt h2 p2 (registerAt h1 p1 t).1).2 = false
    ∧ (findNode p1 (registerAt h2 p2 (registerAt h1 p1 t).1).1).map
        (fun nd => nd.handler.isSome) = some true := by
  constructor
  · rcases hover with ⟨r, hr⟩ | ⟨r, hr⟩
    · subst hr
      exact registerAt_extension_fails p1 r t h1 h2 hsucc
    · cases r with
      | nil =>
        rw [List.append_nil] at hr
        subst hr
        simpa using registerAt_extension_fails p1 [] t h1 h2 hsucc
      | cons x xs =>
        subst hr
        exact registerAt_shorter_fails p2 (x :: xs) t h1 h2 (by simp) hsucc
  · exact registerAt_keeps p2 p1 _ h2 (registerAt_handlerAt p1 t h1 hsucc)

/-- C6 witness: registering the prefix foo succeeds on an empty tree, after
which registering foo/bar fails and the handler at foo survives. -/
theorem c6_exclusive_witness :
    (registerAt dummyHandler [("foo").toList] (.node none [])).2 = true
    ∧ ((registerAt dummyHandler [("foo").toList, ("bar").toList]
          (registerAt dummyHandler [("foo").toList] (.node none [])).1).2 = false
        ∧ (findNode [("foo").toList]
            (registerAt dummyHandler [("foo").toList, ("bar").toList]
              (registerAt dummyHandler [("foo").toList] (.node none [])).1).1).map
            (fun nd => nd.handler.isSome) = some true) := by
  refine ⟨by decide, ?_⟩
  exact c6_exclusive (.node none []) [("foo").toList] [("foo").toList, ("bar").toList]
    dummyHandler dummyHandler (Or.inl ⟨[("bar").toList], rfl⟩) (by decide)

/-! ## C10 — implicit root registration -/

/-- Registering any path into an empty tree succeeds. -/
theorem registerAt_empty_true (p : List Str) (h : Handler) :
    (registerAt h p (.node none [])).2 = true := by
  induction p with
  | nil => simp [registerAt, RTree.handler, RTree.children]
  | cons s rest ih =>
    simp [registerAt, RTree.handler, RTree.children, findChild, ih]

/-- The dispatch walk on a childless node stops there, returning the whole
remaining path. -/
theorem walkTree_leaf (q : List Str) (oh : Option Handler) :
    walkTree q (.node oh []) = (.node oh [], q) := by
  cases q with
  | nil => simp [walkTree]
  | cons s rest => simp [walkTree, RTree.children, findChild]

/-- C10: RegisterResource with the empty path on a server without a resource
tree succeeds and installs the handler at the root; every valid complete
request is then dispatched to that handler with its target path rewritten to
the full path minus any leading empty segment; every subsequent registration
attempt, at any path, fails while the root handler is installed; and
unregistering the root releases the tree, after which registration at any
path succeeds again. -/
theorem c10_root (h : Handler) :
    registerResource none [] h = (some (.node (some h) []), true)
    ∧ (∀ req : Request, req.state = RState.complete → req.valid = true →
        handleText (some (.node (some h) [])) req =
          generateToString (contentLengthFixup
            (h { req with target := { req.target with path := stripRoot req.target.path } })))
    ∧ (∀ (p : List Str) (h2 : Handler), (registerAt h2 p (.node (some h) [])).2 = false)
    ∧ unregisterResource (some (.node (some h) [])) [] = none
    ∧ (∀ (p : List Str) (h3 : Handler), (registerResource none p h3).2 = true) := by
  refine ⟨?_, ?_, ?_, ?_, ?_⟩
  · simp [registerResource, registerAt, RTree.handler, RTree.children]
  · intro req hst hv
    simp only [handleText, hst, hv, and_self, if_true]
    rw [walkTree_leaf (stripRoot req.target.path) (some h)]
    simp [RTree.handler]
  · intro p h2
    cases p with
    | nil => simp [registerAt, RTree.handler]
    | cons s rest => simp [registerAt, RTree.handler]
  · simp [unregisterResource, unregisterAt, RTree.children]
  · intro p h3
    simpa [registerResource] using registerAt_empty_true p h3

/-- C10 witness: with a concrete handler, the empty-path registration
succeeds, a valid complete request for /x is dispatched to the root handler
with path x, a later registration for a is refused, and unregistering the
root releases the tree so that registering foo succeeds afterwards. -/
theorem c10_root_witness :
    registerResource none [] dummyHandler = (some (.node (some dummyHandler) []), true)
    ∧ handleText (some (.node (some dummyHandler) []))
        { freshRequest with state := RState.complete,
                            target := ⟨[], [[], ("x").toList]⟩ } =
        generateToString (contentLengthFixup
          (dummyHandler
            { { freshRequest with state := RState.complete,
                                  target := ⟨[], [[], ("x").toList]⟩ } with
                target := ⟨[], [("x").toList]⟩ }))
    ∧ (registerAt dummyHandler [("a").toList] (.node (some dummyHandler) [])).2 = false
    ∧ unregisterResource (some (.node (some dummyHandler) [])) [] = none
    ∧ (registerResource none [("foo").toList] dummyHandler).2 = true := by
  have h := c10_root dummyHandler
  refine ⟨h.1, ?_, h.2.2.1 [("a").toList] dummyHandler, h.2.2.2.1,
    h.2.2.2.2 [("foo").toList] dummyHandler⟩
  exact h.2.1 { freshRequest with state := RState.complete,
                                  target := ⟨[], [[], ("x").toList]⟩ } rfl rfl

/-! ## C7 — handler dispatch and Content-Length synthesis -/

/-- The resource tree with one handler registered at the prefix foo. -/
def fooTree (h : Handler) : RTree := .node none [(("foo").toList, .node (some h) [])]

/-- A handler answering 200 OK with body Hello! and no Content-Length,
as in the spec's scenario 5. -/
def helloHandler : Handler := fun _ =>
  ⟨200, ("OK").toList,
    ⟨1000, [(("Content-Type").toList, ("test/plain").toList)], true, .complete⟩,
    ("Hello!").toList⟩

/-- The spec's scenario-5 request, already parsed: a valid complete request
for /foo/bar. -/
def reqFooBar : Request :=
  { freshRequest with state := RState.complete,
                      target := ⟨[], [[], ("foo").toList, ("bar").toList]⟩ }

/-- C7: on a tree with a handler at prefix foo, every valid complete request
whose path (after stripping a leading empty segment) starts with foo is
dispatched to that handler with the target path rewritten to the remaining
tail, the handler response passing through the Content-Length fix-up before
serialization; and the fix-up adds Content-Length equal to the body length
whenever the response has a non-empty body and carries neither
Transfer-Encoding nor Content-Length. -/
theorem c7_dispatch (h : Handler) :
    (∀ (req : Request) (rest : List Str),
      req.state = RState.complete → req.valid = true →
      stripRoot req.target.path = ("foo").toList :: rest →
      handleText (some (fooTree h)) req =
        generateToString (contentLengthFixup
          (h { req with target := { req.target with path := rest } })))
    ∧ (∀ resp : HttpResponse,
        hasHeader resp.headers teN = false →
        resp.body ≠ [] →
        hasHeader resp.headers clN = false →
        contentLengthFixup resp =
          { resp with headers := addHeader resp.headers clN
                                   (natToStr resp.body.length) }) := by
  constructor
  · intro req rest hst hv hpath
    simp only [handleText, hst, hv, and_self, if_true]
    rw [hpath]
    simp only [fooTree, walkTree, RTree.children, findChild, if_true]
    rw [walkTree_leaf rest (some h)]
    simp [RTree.handler]
  · intro resp h1 h2 h3
    have hcond : ¬ hasHeader resp.headers teN
        ∧ resp.body ≠ [] ∧ ¬ hasHeader resp.headers clN :=
      ⟨by simp only [Bool.not_eq_true]; exact h1, h2,
        by simp only [Bool.not_eq_true]; exact h3⟩
    unfold contentLengthFixup
    rw [if_pos hcond]

/-- C7 witness: the request for /foo/bar reaches the foo handler with target
path bar, and the Hello! response gains a Content-Length header whose value
is the decimal 6. -/
theorem c7_dispatch_witness :
    handleText (some (fooTree helloHandler)) reqFooBar =
      generateToString (contentLengthFixup
        (helloHandler { reqFooBar with target := ⟨[], [("bar").toList]⟩ }))
    ∧ contentLengthFixup (helloHandler { reqFooBar with target := ⟨[], [("bar").toList]⟩ }) =
        { helloHandler { reqFooBar with target := ⟨[], [("bar").toList]⟩ } with
            headers := addHeader
              (helloHandler { reqFooBar with target := ⟨[], [("bar").toList]⟩ }).headers
              clN
              (natToStr (helloHandler
                { reqFooBar with target := ⟨[], [("bar").toList]⟩ }).body.length) }
    ∧ natToStr (("Hello!").toList).length = ("6").toList := by
  refine ⟨?_, ?_, by decide⟩
  · exact (c7_dispatch helloHandler).1 reqFooBar [("bar").toList] rfl rfl rfl
  · exact (c7_dispatch helloHandler).2
      (helloHandler { reqFooBar with target := ⟨[], [("bar").toList]⟩ })
      (by decide) (by decide) (by decide)

/-! ## Loop-step lemmas for the parse-and-respond loop -/

/-- One iteration of the parse-and-respond loop on a request that becomes
complete: its response is sent, a graceful break follows exactly when the
request's Connection tokens include close, and the loop keeps running on the
remaining buffer with a fresh request. -/
theorem drLoop_complete_step (cfg : SrvConfig) (res : Option RTree) (fuel : Nat)
    (st : ConnState) (r1 : Request) (n : Nat)
    (hp : parseRequest cfg st.nextRequest st.buffer = (r1, n))
    (hst : r1.state = RState.complete) :
    drLoop cfg res (fuel + 1) st =
      ((drLoop cfg res fuel ⟨st.buffer.drop n, freshRequest⟩).1,
        (SrvEvent.response r1 (handleText res r1) ::
          (if (connTokens r1).contains closeTok then [SrvEvent.broken true] else []))
          ++ (drLoop cfg res fuel ⟨st.buffer.drop n, freshRequest⟩).2) := by
  have hproc : r1.IsProcessed = true := by
    simp [Request.IsProcessed, hst]
  simp only [drLoop, hp, hproc, hst, if_true]

/-- One iteration of the parse-and-respond loop on a request that becomes
processed in the Error state: its response is sent, the connection is broken
gracefully, and the loop stops. -/
theorem drLoop_error_stops (cfg : SrvConfig) (res : Option RTree) (fuel : Nat)
    (st : ConnState) (r1 : Request) (n : Nat)
    (hp : parseRequest cfg st.nextRequest st.buffer = (r1, n))
    (hst : r1.state = RState.error) :
    drLoop cfg res (fuel + 1) st =
      (⟨st.buffer.drop n, freshRequest⟩,
        [SrvEvent.response r1 (handleText res r1), SrvEvent.broken true]) := by
  have hproc : r1.IsProcessed = true := by
    simp [Request.IsProcessed, hst]
  have hnc : ¬ r1.state = RState.complete := by
    rw [hst]
    exact fun hcontra => RState.noConfusion hcontra
  simp only [drLoop, hp, hproc, if_true, hnc, if_false]

/-! ## C3 — unrecoverable request errors -/

/-- The spec's scenario-4 request: a Content-Length whose accumulation
overflows the size type. -/
def ovReq : Str :=
  ("POST /x HTTP/1.1\r\nHost: h\r\nContent-Length: 1300000000000000000000000000\r\n\r\n").toList

/-- The exact bytes the engine sends for the overflow request. -/
def ov413 : Str :=
  ("HTTP/1.1 413 Payload Too Large\r\nContent-Length: 13\r\nContent-Type: text/plain\r\n\r\nBadRequest.\r\n").toList

/-- C3 counterexample: for the overflow request the engine does send a 413
and break the connection, but the sent response carries no Connection: close
header (it has only Content-Length and Content-Type), refuting the claim
that the response carries Connection: close. -/
theorem c3_counterexample :
    sentBytes (serverRun defaultConfig none initialConn [ovReq]).2 = ov413
    ∧ containsSub (("Connection").toList)
        (sentBytes (serverRun defaultConfig none initialConn [ovReq]).2) = false
    ∧ anyBroken (serverRun defaultConfig none initialConn [ovReq]).2 = true := by
  decide

/-- C3 amended: for every request popped in state Error the engine sends the
canned 413 response (built from the request's responseStatusCode and phrase)
when responseStatusCode is 413 and the canned 400 otherwise, the loop sends
that response and immediately breaks the connection gracefully and stops,
and neither canned response carries any Connection header. -/
theorem c3_amended :
    (∀ (res : Option RTree) (req : Request), req.state = RState.error →
      handleText res req =
        (if req.responseStatusCode = 413 then canned413 req else canned400))
    ∧ (∀ (cfg : SrvConfig) (res : Option RTree) (fuel : Nat) (st : ConnState)
        (r1 : Request) (n : Nat),
        parseRequest cfg st.nextRequest st.buffer = (r1, n) →
        r1.state = RState.error →
        drLoop cfg res (fuel + 1) st =
          (⟨st.buffer.drop n, freshRequest⟩,
            [SrvEvent.response r1 (handleText res r1), SrvEvent.broken true]))
    ∧ containsSub (("Connection").toList) canned400 = false
    ∧ (∀ req : Request, req.responseStatusCode = 413 →
        req.responseStatusPhrase = ("Payload Too Large").toList →
        containsSub (("Connection").toList) (canned413 req) = false) := by
  refine ⟨?_, ?_, by decide, ?_⟩
  · intro res req hst
    have hnc : ¬ (req.state = RState.complete ∧ req.valid) := by
      rw [hst]
      exact fun hcontra => RState.noConfusion hcontra.1
    simp [handleText, hnc, hst]
  · intro cfg res fuel st r1 n hp hst
    exact drLoop_error_stops cfg res fuel st r1 n hp hst
  · intro req hcode hphrase
    rw [canned413, hcode, hphrase]
    decide

/-- C3 witness: the loop lemma and the 413 shape instantiated on the
concrete overflow request. -/
theorem c3_amended_witness :
    drLoop defaultConfig none 6 ⟨ovReq, freshRequest⟩ =
      (⟨ovReq.drop (parseRequest defaultConfig freshRequest ovReq).2, freshRequest⟩,
        [SrvEvent.response (parseRequest defaultConfig freshRequest ovReq).1
          (handleText none (parseRequest defaultConfig freshRequest ovReq).1),
         SrvEvent.broken true])
    ∧ handleText none (parseRequest defaultConfig freshRequest ovReq).1 =
        canned413 (parseRequest defaultConfig freshRequest ovReq).1 := by
  constructor
  · exact c3_amended.2.1 defaultConfig none 5 ⟨ovReq, freshRequest⟩
      (parseRequest defaultConfig freshRequest ovReq).1
      (parseRequest defaultConfig freshRequest ovReq).2 rfl (by decide)
  · have h := c3_amended.1 none (parseRequest defaultConfig freshRequest ovReq).1 (by decide)
    rw [h]
    have hcode : (parseRequest defaultConfig freshRequest ovReq).1.responseStatusCode = 413 := by
      decide
    rw [if_pos hcode]

/-! ## C8 — connection-close handling -/

/-- A request carrying Connection: close, answered by the canned 404. -/
def closeReq : Str := ("GET /x HTTP/1.1\r\nHost: h\r\nConnection: close\r\n\r\n").toList

/-- C8 counterexample: for a valid request with Connection: close the engine
breaks the connection after sending, but it sends the canned 404 unchanged —
no close token (indeed no Connection header at all) is appended to the
response, refuting the claimed response-side echo. -/
theorem c8_counterexample :
    sentBytes (serverRun defaultConfig none initialConn [closeReq]).2 = canned404
    ∧ containsSub (("Connection").toList)
        (sentBytes (serverRun defaultConfig none initialConn [closeReq]).2) = false
    ∧ anyBroken (serverRun defaultConfig none initialConn [closeReq]).2 = true
    ∧ (serverRun defaultConfig none initialConn [closeReq]).2.length = 2 := by
  decide

/-- C8 amended: for every completed request whose Connection header tokens
(multi-valued, comma-split and trimmed) contain close, the engine sends the
response unmodified and then initiates a graceful break of the connection,
while the loop continues processing the remaining buffer. -/
theorem c8_amended (cfg : SrvConfig) (res : Option RTree) (fuel : Nat)
    (st : ConnState) (r1 : Request) (n : Nat)
    (hp : parseRequest cfg st.nextRequest st.buffer = (r1, n))
    (hst : r1.state = RState.complete)
    (hclose : (connTokens r1).contains closeTok = true) :
    drLoop cfg res (fuel + 1) st =
      ((drLoop cfg res fuel ⟨st.buffer.drop n, freshRequest⟩).1,
        SrvEvent.response r1 (handleText res r1) :: SrvEvent.broken true ::
          (drLoop cfg res fuel ⟨st.buffer.drop n, freshRequest⟩).2) := by
  rw [drLoop_complete_step cfg res fuel st r1 n hp hst, hclose]
  simp

/-- C8 witness: the amended statement instantiated on the concrete
Connection: close request. -/
theorem c8_amended_witness :
    drLoop defaultConfig none 6 ⟨closeReq, freshRequest⟩ =
      ((drLoop defaultConfig none 5
          ⟨closeReq.drop (parseRequest defaultConfig freshRequest closeReq).2,
            freshRequest⟩).1,
        SrvEvent.response (parseRequest defaultConfig freshRequest closeReq).1
          (handleText none (parseRequest defaultConfig freshRequest closeReq).1) ::
          SrvEvent.broken true ::
          (drLoop defaultConfig none 5
            ⟨closeReq.drop (parseRequest defaultConfig freshRequest closeReq).2,
              freshRequest⟩).2) := by
  exact c8_amended defaultConfig none 5 ⟨closeReq, freshRequest⟩
    (parseRequest defaultConfig freshRequest closeReq).1
    (parseRequest defaultConfig freshRequest closeReq).2 rfl (by decide) (by decide)

/-! ## C5 — Host semantic checks -/

/-- The claim's host condition: Host header present, any explicit target host
equal to its value, and any non-empty configured Host equal to its value. -/
def hostOk (cfg : SrvConfig) (m : MessageHeaders) (tgt : Uri) : Bool :=
  hasHeader m hostN
    && (decide (tgt.host = []) || decide (tgt.host = getHeaderValue m hostN))
    && (decide (cfg.host = []) || decide (cfg.host = getHeaderValue m hostN))

/-- The engine's host check at the Headers-to-Body transition only touches
the valid flag, clearing it exactly when hostOk fails. -/
theorem hostCheckApply_eq (cfg : SrvConfig) (r : Request) :
    hostCheckApply cfg r = { r with valid := r.valid && hostOk cfg r.headers r.target } := by
  by_cases hh : hasHeader r.headers hostN
  · by_cases hc : cfg.host = []
    · by_cases ht : r.target.host = []
      · simp [hostCheckApply, hostOk, hh, hc, ht]
      · by_cases hvt : r.target.host = getHeaderValue r.headers hostN
        · simp [hostCheckApply, hostOk, hh, hc, hvt]
        · simp [hostCheckApply, hostOk, hh, hc, ht, hvt, Ne.symm hvt]
    · by_cases hvc : cfg.host = getHeaderValue r.headers hostN
      · by_cases ht : r.target.host = []
        · simp [hostCheckApply, hostOk, hh, ht, hvc]
        · by_cases hvt : r.target.host = getHeaderValue r.headers hostN
          · simp [hostCheckApply, hostOk, hh, hvt, hvc]
          · simp [hostCheckApply, hostOk, hh, hc, ht, hvt, Ne.symm hvt, hvc]
      · by_cases ht : r.target.host = []
        · simp [hostCheckApply, hostOk, hh, hc, ht, hvc, Ne.symm hvc]
        · by_cases hvt : r.target.host = getHeaderValue r.headers hostN
          · simp [hostCheckApply, hostOk, hh, hc, ht, hvt, hvc, Ne.symm hvc]
          · simp [hostCheckApply, hostOk, hh, hc, ht, hvt, hvc, Ne.symm hvt, Ne.symm hvc]
  · simp [hostCheckApply, hostOk, hh]

/-- The Body phase never changes the valid flag. -/
theorem parseBodyPhase_valid (r : Request) (input : Str) (e : Nat) :
    (parseBodyPhase r input e).1.valid = r.valid := by
  unfold parseBodyPhase
  by_cases hcl : hasHeader r.headers clN
  · simp only [hcl, if_true]
    rcases hps : parseSize (getHeaderValue r.headers clN) with ⟨sres, cl⟩
    cases sres with
    | success =>
      by_cases hmax : cl > MAX_CONTENT_LENGTH
      · simp [hps, hmax]
      · by_cases hav : cl > input.length - e
        · simp [hps, hmax, hav]
        · simp [hps, hmax, hav]
    | notaNumber => simp [hps]
    | overflow => simp [hps]
  · simp [hcl]

/-- The Body phase never changes the headers. -/
theorem parseBodyPhase_headers (r : Request) (input : Str) (e : Nat) :
    (parseBodyPhase r input e).1.headers = r.headers := by
  unfold parseBodyPhase
  by_cases hcl : hasHeader r.headers clN
  · simp only [hcl, if_true]
    rcases hps : parseSize (getHeaderValue r.headers clN) with ⟨sres, cl⟩
    cases sres with
    | success =>
      by_cases hmax : cl > MAX_CONTENT_LENGTH
      · simp [hps, hmax]
      · by_cases hav : cl > input.length - e
        · simp [hps, hmax, hav]
        · simp [hps, hmax, hav]
    | notaNumber => simp [hps]
    | overflow => simp [hps]
  · simp [hcl]

/-- The spec's missing-Host request extended with a Content-Length above the
ceiling: it reaches the Headers-to-Body transition (so the host check clears
valid) but then errs with 413 and the connection is broken. -/
def noHostBig : Str := ("GET /x HTTP/1.1\r\nContent-Length: 10000001\r\n\r\n").toList

/-- A missing-Host request without Content-Length: the recoverable case. -/
def noHostReq : Str := ("GET /x HTTP/1.1\r\nUA: y\r\n\r\n").toList

/-- C5 counterexample: a request that reaches the Headers-to-Body transition
with the Host header absent (valid is cleared, its header block is complete)
need not complete — with a Content-Length above the ceiling it ends in state
Error, is answered 413 rather than 400, and the connection is broken. -/
theorem c5_counterexample :
    (firstResponseReq (serverRun defaultConfig none initialConn [noHostBig]).2).map
        Request.state = some RState.error
    ∧ (firstResponseReq (serverRun defaultConfig none initialConn [noHostBig]).2).map
        Request.valid = some false
    ∧ (firstResponseReq (serverRun defaultConfig none initialConn [noHostBig]).2).map
        (fun r => r.headers.hstate) = some HState.complete
    ∧ sentBytes (serverRun defaultConfig none initialConn [noHostBig]).2 = ov413
    ∧ anyBroken (serverRun defaultConfig none initialConn [noHostBig]).2 = true := by
  decide

/-- C5 amended: at the Headers-to-Body transition the engine sets valid to
the conjunction of its previous value, the header block's own validity and
the claim's host condition (Host present, explicit target host equal to it,
non-empty configured Host equal to it); when no Content-Length header is
present such a request completes in the same call consuming exactly the
parsed bytes; a complete invalid request is answered with the canned 400;
and after its response the loop goes on processing pipelined requests
without breaking the connection when no close token was sent. -/
theorem c5_amended :
    (∀ (cfg : SrvConfig) (r : Request) (input : Str) (m1 : MessageHeaders) (k : Nat),
      r.state = RState.headers →
      parseRawMessage ⟨cfg.headerLineLimit, r.headers.headers, r.headers.valid, r.headers.hstate⟩
        input = (m1, k) →
      m1.hstate = HState.complete →
      (parseRequest cfg r input).1.valid = (r.valid && m1.valid && hostOk cfg m1 r.target))
    ∧ (∀ (cfg : SrvConfig) (r : Request) (input : Str) (m1 : MessageHeaders) (k : Nat),
      r.state = RState.headers →
      parseRawMessage ⟨cfg.headerLineLimit, r.headers.headers, r.headers.valid, r.headers.hstate⟩
        input = (m1, k) →
      m1.hstate = HState.complete →
      hasHeader m1 clN = false →
      (parseRequest cfg r input).1.state = RState.complete ∧ (parseRequest cfg r input).2 = k)
    ∧ (∀ (res : Option RTree) (req : Request), req.state = RState.complete →
        req.valid = false → handleText res req = canned400)
    ∧ (∀ (cfg : SrvConfig) (res : Option RTree) (fuel : Nat) (st : ConnState)
        (r1 : Request) (n : Nat),
        parseRequest cfg st.nextRequest st.buffer = (r1, n) →
        r1.state = RState.complete →
        (connTokens r1).contains closeTok = false →
        drLoop cfg res (fuel + 1) st =
          ((drLoop cfg res fuel ⟨st.buffer.drop n, freshRequest⟩).1,
            SrvEvent.response r1 (handleText res r1) ::
              (drLoop cfg res fuel ⟨st.buffer.drop n, freshRequest⟩).2)) := by
  refine ⟨?_, ?_, ?_, ?_⟩
  · intro cfg r input m1 k hst hpm hcm
    simp only [parseRequest, hst, parseHeadersPhase, List.drop_zero, hpm, hcm]
    rw [parseBodyPhase_valid, hostCheckApply_eq]
  · intro cfg r input m1 k hst hpm hcm hnc
    simp only [parseRequest, hst, parseHeadersPhase, List.drop_zero, hpm, hcm]
    have hh : (hostCheckApply cfg
        { r with headers := m1,
                 valid := r.valid && m1.valid,
                 state := RState.body }).headers = m1 := by
      rw [hostCheckApply_eq]
    have hs : (hostCheckApply cfg
        { r with headers := m1,
                 valid := r.valid && m1.valid,
                 state := RState.body }).state = RState.body := by
      rw [hostCheckApply_eq]
    generalize hostCheckApply cfg
      { r with headers := m1,
               valid := r.valid && m1.valid,
               state := RState.body } = r2 at hh hs
    unfold parseBodyPhase
    rw [hh]
    simp [hnc, hs]
  · intro res req hst hv
    have hnc : ¬ (req.state = RState.complete ∧ req.valid) := by
      rw [hv]
      exact fun hcontra => Bool.noConfusion hcontra.2
    have hne : ¬ (req.state = RState.error ∧ req.responseStatusCode = 413) := by
      rw [hst]
      exact fun hcontra => RState.noConfusion hcontra.1
    simp [handleText, hnc, hne]
  · intro cfg res fuel st r1 n hp hst hclose
    rw [drLoop_complete_step cfg res fuel st r1 n hp hst, hclose]
    simp

/-- C5 witness: the transition conjuncts instantiated on the missing-Host
request body (valid drops to false, the request completes consuming the
whole header block), the 400 answer for the resulting complete invalid
request, and the loop continuation on the full request. -/
theorem c5_amended_witness :
    (parseRequest defaultConfig { freshRequest with state := RState.headers }
        (("UA: y\r\n\r\n").toList)).1.valid =
      (freshRequest.valid
        && (parseRawMessage ⟨1000, [], true, HState.incomplete⟩ (("UA: y\r\n\r\n").toList)).1.valid
        && hostOk defaultConfig
            (parseRawMessage ⟨1000, [], true, HState.incomplete⟩ (("UA: y\r\n\r\n").toList)).1
            freshRequest.target)
    ∧ (parseRequest defaultConfig { freshRequest with state := RState.headers }
        (("UA: y\r\n\r\n").toList)).1.state = RState.complete
    ∧ (parseRequest defaultConfig { freshRequest with state := RState.headers }
        (("UA: y\r\n\r\n").toList)).2 =
        (parseRawMessage ⟨1000, [], true, HState.incomplete⟩ (("UA: y\r\n\r\n").toList)).2
    ∧ handleText none (parseRequest defaultConfig freshRequest noHostReq).1 = canned400
    ∧ drLoop defaultConfig none 6 ⟨noHostReq, freshRequest⟩ =
        ((drLoop defaultConfig none 5
            ⟨noHostReq.drop (parseRequest defaultConfig freshRequest noHostReq).2,
              freshRequest⟩).1,
          SrvEvent.response (parseRequest defaultConfig freshRequest noHostReq).1
            (handleText none (parseRequest defaultConfig freshRequest noHostReq).1) ::
            (drLoop defaultConfig none 5
              ⟨noHostReq.drop (parseRequest defaultConfig freshRequest noHostReq).2,
                freshRequest⟩).2) := by
  refine ⟨?_, ?_, ?_, ?_, ?_⟩
  · exact c5_amended.1 defaultConfig { freshRequest with state := RState.headers }
      (("UA: y\r\n\r\n").toList)
      (parseRawMessage ⟨1000, [], true, HState.incomplete⟩ (("UA: y\r\n\r\n").toList)).1
      (parseRawMessage ⟨1000, [], true, HState.incomplete⟩ (("UA: y\r\n\r\n").toList)).2
      rfl rfl (by decide)
  · exact (c5_amended.2.1 defaultConfig { freshRequest with state := RState.headers }
      (("UA: y\r\n\r\n").toList)
      (parseRawMessage ⟨1000, [], true, HState.incomplete⟩ (("UA: y\r\n\r\n").toList)).1
      (parseRawMessage ⟨1000, [], true, HState.incomplete⟩ (("UA: y\r\n\r\n").toList)).2
      rfl rfl (by decide) (by decide)).1
  · exact (c5_amended.2.1 defaultConfig { freshRequest with state := RState.headers }
      (("UA: y\r\n\r\n").toList)
      (parseRawMessage ⟨1000, [], true, HState.incomplete⟩ (("UA: y\r\n\r\n").toList)).1
      (parseRawMessage ⟨1000, [], true, HState.incomplete⟩ (("UA: y\r\n\r\n").toList)).2
      rfl rfl (by decide) (by decide)).2
  · exact c5_amended.2.2.1 none (parseRequest defaultConfig freshRequest noHostReq).1
      (by decide) (by decide)
  · exact c5_amended.2.2.2 defaultConfig none 5 ⟨noHostReq, freshRequest⟩
      (parseRequest defaultConfig freshRequest noHostReq).1
      (parseRequest defaultConfig freshRequest noHostReq).2 rfl (by decide) (by decide)

/-! ## C4 — Content-Length parsing -/

/-- Decimal digit test, matching the character range check of ParseSize. -/
def isDigitC (c : Char) : Bool := decide (48 ≤ c.toNat) && decide (c.toNat ≤ 57)

/-- The true (unbounded) value of a digit string continued from an
accumulator. -/
def digitsValFrom (acc : Nat) : Str → Nat
  | [] => acc
  | c :: r => digitsValFrom (acc * 10 + (c.toNat - 48)) r

/-- The true (unbounded) value of a digit string. -/
def digitsVal (s : Str) : Nat := digitsValFrom 0 s

theorem digitsValFrom_nil (acc : Nat) : digitsValFrom acc [] = acc := rfl

theorem digitsValFrom_cons (acc : Nat) (c : Char) (r : Str) :
    digitsValFrom acc (c :: r) = digitsValFrom (acc * 10 + (c.toNat - 48)) r := rfl

theorem parseSizeAux_nil (acc : Nat) : parseSizeAux acc [] = (.success, acc) := rfl

theorem parseSizeAux_cons (acc : Nat) (c : Char) (r : Str) :
    parseSizeAux acc (c :: r) =
      if (decide (c.toNat < 48) || decide (57 < c.toNat)) = true then (.notaNumber, acc)
      else
        if ((acc * 10 + (c.toNat - 48)) % U64) / 10 ≠ acc
        then (.overflow, (acc * 10 + (c.toNat - 48)) % U64)
        else parseSizeAux ((acc * 10 + (c.toNat - 48)) % U64) r := rfl

theorem digitsValFrom_ge (s : Str) : ∀ acc : Nat, acc ≤ digitsValFrom acc s := by
  induction s with
  | nil =>
    intro acc
    rw [digitsValFrom_nil]
  | cons c r ih =>
    intro acc
    have h1 := ih (acc * 10 + (c.toNat - 48))
    have h2 : acc ≤ acc * 10 + (c.toNat - 48) := by omega
    rw [digitsValFrom_cons]
    omega

theorem parseSizeAux_success (s : Str) : ∀ acc : Nat, acc < U64 →
    (∀ c ∈ s, isDigitC c = true) → digitsValFrom acc s < U64 →
    parseSizeAux acc s = (.success, digitsValFrom acc s) := by
  induction s with
  | nil =>
    intro acc _ _ _
    rw [parseSizeAux_nil, digitsValFrom_nil]
  | cons c r ih =>
    intro acc hacc hdig hval
    have hc1 : 48 ≤ c.toNat ∧ c.toNat ≤ 57 := by
      simpa [isDigitC] using hdig c (List.mem_cons_self c r)
    have hnd : (decide (c.toNat < 48) || decide (57 < c.toNat)) = false := by
      simp only [Bool.or_eq_false_iff, decide_eq_false_iff_not, Nat.not_lt]
      omega
    have hdv : digitsValFrom acc (c :: r) = digitsValFrom (acc * 10 + (c.toNat - 48)) r := rfl
    have hvlt : acc * 10 + (c.toNat - 48) < U64 := by
      have := digitsValFrom_ge r (acc * 10 + (c.toNat - 48))
      rw [hdv] at hval
      omega
    have hmod : (acc * 10 + (c.toNat - 48)) % U64 = acc * 10 + (c.toNat - 48) :=
      Nat.mod_eq_of_lt hvlt
    have hdiv : (acc * 10 + (c.toNat - 48)) / 10 = acc := by omega
    have hrest : ∀ d ∈ r, isDigitC d = true := fun d hd => hdig d (List.mem_cons_of_mem c hd)
    rw [parseSizeAux_cons, hnd, hmod, hdiv, hdv]
    simp only [Bool.false_eq_true, if_false, ne_eq, not_true_eq_false]
    exact ih (acc * 10 + (c.toNat - 48)) hvlt hrest (hdv ▸ hval)

theorem parseSizeAux_overflow (s : Str) : ∀ (q : Str) (acc : Nat), acc < U64 →
    (∀ c ∈ s, isDigitC c = true) → U64 ≤ digitsValFrom acc s →
    (parseSizeAux acc (s ++ q)).1 = .overflow := by
  induction s with
  | nil =>
    intro q acc hacc _ hval
    rw [digitsValFrom_nil] at hval
    omega
  | cons c r ih =>
    intro q acc hacc hdig hval
    have hc1 : 48 ≤ c.toNat ∧ c.toNat ≤ 57 := by
      simpa [isDigitC] using hdig c (List.mem_cons_self c r)
    have hnd : (decide (c.toNat < 48) || decide (57 < c.toNat)) = false := by
      simp only [Bool.or_eq_false_iff, decide_eq_false_iff_not, Nat.not_lt]
      omega
    have hdv : digitsValFrom acc (c :: r) = digitsValFrom (acc * 10 + (c.toNat - 48)) r := rfl
    have hrest : ∀ d ∈ r, isDigitC d = true := fun d hd => hdig d (List.mem_cons_of_mem c hd)
    by_cases hv : acc * 10 + (c.toNat - 48) < U64
    · have hmod : (acc * 10 + (c.toNat - 48)) % U64 = acc * 10 + (c.toNat - 48) :=
        Nat.mod_eq_of_lt hv
      have hdiv : (acc * 10 + (c.toNat - 48)) / 10 = acc := by omega
      rw [List.cons_append, parseSizeAux_cons, hnd, hmod, hdiv]
      simp only [Bool.false_eq_true, if_false, ne_eq, not_true_eq_false]
      exact ih q (acc * 10 + (c.toNat - 48)) hv hrest (hdv ▸ hval)
    · have hncase : (acc * 10 + (c.toNat - 48)) % U64 / 10 ≠ acc := by
        have hU : U64 = 18446744073709551616 := rfl
        rw [hU] at hv hacc ⊢
        omega
      rw [List.cons_append, parseSizeAux_cons, hnd]
      simp only [Bool.false_eq_true, if_false]
      rw [if_pos hncase]

theorem parseSizeAux_notanum (p : Str) : ∀ (c : Char) (q : Str) (acc : Nat), acc < U64 →
    (∀ d ∈ p, isDigitC d = true) → isDigitC c = false → digitsValFrom acc p < U64 →
    (parseSizeAux acc (p ++ c :: q)).1 = .notaNumber := by
  induction p with
  | nil =>
    intro c q acc hacc _ hc hval
    have hnd : (decide (c.toNat < 48) || decide (57 < c.toNat)) = true := by
      simp only [isDigitC, Bool.and_eq_false_iff, decide_eq_false_iff_not, Nat.not_le] at hc
      rcases hc with hlt | hgt
      · simp [hlt]
      · simp [hgt]
    rw [List.nil_append, parseSizeAux_cons, hnd]
    simp
  | cons d r ih =>
    intro c q acc hacc hdig hc hval
    have hc1 : 48 ≤ d.toNat ∧ d.toNat ≤ 57 := by
      simpa [isDigitC] using hdig d (List.mem_cons_self d r)
    have hnd : (decide (d.toNat < 48) || decide (57 < d.toNat)) = false := by
      simp only [Bool.or_eq_false_iff, decide_eq_false_iff_not, Nat.not_lt]
      omega
    have hdv : digitsValFrom acc (d :: r) = digitsValFrom (acc * 10 + (d.toNat - 48)) r := rfl
    have hvlt : acc * 10 + (d.toNat - 48) < U64 := by
      have := digitsValFrom_ge r (acc * 10 + (d.toNat - 48))
      rw [hdv] at hval
      omega
    have hmod : (acc * 10 + (d.toNat - 48)) % U64 = acc * 10 + (d.toNat - 48) :=
      Nat.mod_eq_of_lt hvlt
    have hdiv : (acc * 10 + (d.toNat - 48)) / 10 = acc := by omega
    have hrest : ∀ e ∈ r, isDigitC e = true := fun e he => hdig e (List.mem_cons_of_mem d he)
    rw [List.cons_append, parseSizeAux_cons, hnd, hmod, hdiv]
    simp only [Bool.false_eq_true, if_false, ne_eq, not_true_eq_false]
    exact ih c q (acc * 10 + (d.toNat - 48)) hvlt hrest hc (hdv ▸ hval)

/-- A request sitting at the Body phase with a Content-Length header whose
value is the given string. -/
def bodyReq (s : Str) : Request :=
  { freshRequest with state := RState.body,
                      headers := ⟨1000, [(clN, s)], true, .complete⟩ }

/-- The request whose Content-Length value overflows before its non-digit. -/
def ovMix : Str :=
  ("POST /x HTTP/1.1\r\nHost: h\r\nContent-Length: 99999999999999999999x\r\n\r\n").toList

/-- C4 counterexample: the Content-Length value 99999999999999999999x contains
a non-digit character, yet the engine answers it through the 413 path, not
the 400 path — the overflow check fires on the twentieth digit before the x
is ever examined. -/
theorem c4_counterexample :
    (firstResponseReq (serverRun defaultConfig none initialConn [ovMix]).2).map
        Request.responseStatusCode = some 413
    ∧ (firstResponseReq (serverRun defaultConfig none initialConn [ovMix]).2).map
        Request.state = some RState.error
    ∧ sentBytes (serverRun defaultConfig none initialConn [ovMix]).2 = ov413
    ∧ anyBroken (serverRun defaultConfig none initialConn [ovMix]).2 = true := by
  decide

/-- C4 amended: at the Body phase, a Content-Length value whose digits before
the first non-digit character do not overflow sets state Error and is
answered through the 400 path; a value whose digit accumulation reaches 2^64
sets the 413 Payload Too Large error (even when a non-digit follows); a
representable all-digit value strictly above 10,000,000 sets the same 413
error; and a value of exactly 10,000,000 is accepted — the request completes,
carving exactly that many body bytes, as soon as they are available. -/
theorem c4_amended :
    (∀ (cfg : SrvConfig) (r : Request) (input : Str) (p : Str) (c : Char) (q : Str),
      r.state = RState.body →
      hasHeader r.headers clN = true →
      getHeaderValue r.headers clN = p ++ c :: q →
      (∀ d ∈ p, isDigitC d = true) →
      isDigitC c = false →
      digitsVal p < U64 →
      parseRequest cfg r input = ({ r with state := RState.error }, 0)
      ∧ (∀ res : Option RTree, r.responseStatusCode = 400 →
          handleText res { r with state := RState.error } = canned400))
    ∧ (∀ (cfg : SrvConfig) (r : Request) (input : Str) (s : Str),
      r.state = RState.body →
      hasHeader r.headers clN = true →
      getHeaderValue r.headers clN = s →
      (∀ d ∈ s, isDigitC d = true) →
      U64 ≤ digitsVal s →
      parseRequest cfg r input =
        ({ r with state := RState.error,
                  responseStatusCode := 413,
                  responseStatusPhrase := ("Payload Too Large").toList }, 0))
    ∧ (∀ (cfg : SrvConfig) (r : Request) (input : Str) (s : Str),
      r.state = RState.body →
      hasHeader r.headers clN = true →
      getHeaderValue r.headers clN = s →
      (∀ d ∈ s, isDigitC d = true) →
      digitsVal s < U64 →
      MAX_CONTENT_LENGTH < digitsVal s →
      parseRequest cfg r input =
        ({ r with state := RState.error,
                  responseStatusCode := 413,
                  responseStatusPhrase := ("Payload Too Large").toList }, 0))
    ∧ (∀ (cfg : SrvConfig) (r : Request) (input : Str),
      r.state = RState.body →
      hasHeader r.headers clN = true →
      getHeaderValue r.headers clN = ("10000000").toList →
      10000000 ≤ input.length →
      parseRequest cfg r input =
        ({ r with body := input.take 10000000, state := RState.complete }, 10000000)) := by
  refine ⟨?_, ?_, ?_, ?_⟩
  · intro cfg r input p c q hst hhas hget hdig hc hval
    constructor
    · have hps : (parseSize (getHeaderValue r.headers clN)).1 = .notaNumber := by
        rw [hget]
        exact parseSizeAux_notanum p c q 0 (by decide) hdig hc hval
      rcases hpair : parseSize (getHeaderValue r.headers clN) with ⟨sres, num⟩
      rw [hpair] at hps
      simp only at hps
      subst hps
      simp only [parseRequest, hst]
      unfold parseBodyPhase
      simp [hhas, hpair]
    · intro res hcode
      have hnc : ¬ ((RState.error = RState.complete) ∧ r.valid) :=
        fun hcontra => RState.noConfusion hcontra.1
      simp [handleText, hnc, hcode]
  · intro cfg r input s hst hhas hget hdig hval
    have hps : (parseSize (getHeaderValue r.headers clN)).1 = .overflow := by
      rw [hget]
      have := parseSizeAux_overflow s [] 0 (by decide) hdig hval
      simpa using this
    rcases hpair : parseSize (getHeaderValue r.headers clN) with ⟨sres, num⟩
    rw [hpair] at hps
    simp only at hps
    subst hps
    simp only [parseRequest, hst]
    unfold parseBodyPhase
    simp [hhas, hpair]
  · intro cfg r input s hst hhas hget hdig hval hmax
    have hps : parseSize (getHeaderValue r.headers clN) = (.success, digitsVal s) := by
      rw [hget]
      exact parseSizeAux_success s 0 (by decide) hdig hval
    simp only [parseRequest, hst]
    unfold parseBodyPhase
    simp [hhas, hps, hmax]
  · intro cfg r input hst hhas hget hlen
    have hps : parseSize (getHeaderValue r.headers clN) = (.success, 10000000) := by
      rw [hget]
      decide
    have hmax : ¬ 10000000 > MAX_CONTENT_LENGTH := by decide
    have hav : ¬ 10000000 > input.length - 0 := by omega
    simp only [parseRequest, hst]
    unfold parseBodyPhase
    simp only [hhas, if_true, hps, hmax, if_false, hav]
    simp

/-- C4 witness: the four amended cases instantiated — value 12x (no overflow
before the x) errors on the 400 path; value 18446744073709551616 (= 2^64)
errors with 413 Payload Too Large; value 10000001 errors with 413; value
10000000 completes once 10,000,000 body bytes are available. -/
theorem c4_amended_witness :
    (parseRequest defaultConfig (bodyReq (("12x").toList)) [] =
      ({ bodyReq (("12x").toList) with state := RState.error }, 0)
      ∧ handleText none { bodyReq (("12x").toList) with state := RState.error } = canned400)
    ∧ parseRequest defaultConfig (bodyReq (("18446744073709551616").toList)) [] =
        ({ bodyReq (("18446744073709551616").toList) with
            state := RState.error,
            responseStatusCode := 413,
            responseStatusPhrase := ("Payload Too Large").toList }, 0)
    ∧ parseRequest defaultConfig (bodyReq (("10000001").toList)) [] =
        ({ bodyReq (("10000001").toList) with
            state := RState.error,
            responseStatusCode := 413,
            responseStatusPhrase := ("Payload Too Large").toList }, 0)
    ∧ parseRequest defaultConfig (bodyReq (("10000000").toList))
        (List.replicate 10000000 'a') =
        ({ bodyReq (("10000000").toList) with
            body := (List.replicate 10000000 'a').take 10000000,
            state := RState.complete }, 10000000) := by
  refine ⟨?_, ?_, ?_, ?_⟩
  · have h := c4_amended.1 defaultConfig (bodyReq (("12x").toList)) [] (("12").toList) 'x' []
      rfl (by decide) (by decide) (by decide) (by decide) (by decide)
    exact ⟨h.1, h.2 none rfl⟩
  · exact c4_amended.2.1 defaultConfig (bodyReq (("18446744073709551616").toList)) []
      (("18446744073709551616").toList) rfl (by decide) (by decide) (by decide) (by decide)
  · exact c4_amended.2.2.1 defaultConfig (bodyReq (("10000001").toList)) []
      (("10000001").toList) rfl (by decide) (by decide) (by decide) (by decide) (by decide)
  · have h4 : 10000000 ≤ (List.replicate 10000000 'a').length := by
      rw [List.length_replicate]
    exact c4_amended.2.2.2 defaultConfig (bodyReq (("10000000").toList))
      (List.replicate 10000000 'a') rfl (by decide) (by decide) h4

end HttpSrv
